import Mathlib

/-!
Shallow embedding of Envoy's fancy logger core
(`source/common/common/fancy_logger.cc`).

The source file carries two revisions of the same component:
the `FancyContext` class revision (a registry with a bool-returning
`setFancyLogger`) and an older free-function revision (whose
`setFancyLogger` creates the logger when the key is absent).  Both are
embedded below, side by side: class members live in the `FancyContext`
namespace, the free functions at the `Envoy` level, mirroring the C++.

Modelling choices:
* a `spdlog::logger*` is a natural number: the index of the record in an
  append-only store (`FancyState.store`); pointer stability is index
  stability.
* `spdlog::level::level_enum` is a `Nat` (trace = 0 .. off = 6).
* the global flat hash map is an association list `List (String × Nat)`;
  `absl::flat_hash_map::insert` does not overwrite an existing key, which
  the embedding reproduces.
* the delegating sink's observable state is `Sink` (its lock flag and
  escape flag).
* the fancy default level and format of `Logger::Context` are the
  `defaults` field of the state.
* all operations run under the registry mutex in the C++, so an execution
  is a sequence of whole operations; concurrency claims are read over
  that serialization.
-/

namespace Envoy

/-- One `spdlog::logger`: registered name, level, pattern, flush threshold. -/
structure SpdLogger where
  name : String
  level : Nat
  pattern : String
  flushLevel : Nat
deriving Repr, DecidableEq

/-- Observable state of the delegating log sink: whether `setLock` has been
called on it, and the escape flag. -/
structure Sink where
  hasLock : Bool
  shouldEscape : Bool
deriving Repr, DecidableEq

/-- Fancy defaults of `Logger::Context`: `getFancyDefaultLevel()` and
`getFancyLogFormat()`. -/
structure ContextDefaults where
  fancyDefaultLevel : Nat
  fancyLogFormat : String
deriving Repr, DecidableEq

/-- Whole-system state: the global key → logger-pointer map (association
list), the append-only store of logger records (a pointer is an index into
it), the sink, and the context defaults. -/
structure FancyState where
  entries : List (String × Nat)
  store : List SpdLogger
  sink : Sink
  defaults : ContextDefaults
deriving Repr, DecidableEq

/-- Lookup `fancy_log_map->find(key)`: first binding of `key` in the map. -/
def findEntry : List (String × Nat) → String → Option Nat
  | [], _ => none
  | (k, v) :: rest, key => if k = key then some v else findEntry rest key

/-- Mutation `it->second->set_level(lv)`: replace the level of the record at index
`i`, leaving every other record in place. -/
def modifyLevel : List SpdLogger → Nat → Nat → List SpdLogger
  | [], _, _ => []
  | l :: rest, 0, lv => { l with level := lv } :: rest
  | l :: rest, n + 1, lv => l :: modifyLevel rest n lv

/-- Level `spdlog::level::critical` (`flush_on` threshold used at creation). -/
def critical : Nat := 5

/-- Level `spdlog::level::info` (default level argument of the free-function
`createLogger`). -/
def info : Nat := 2

/-- Embeds `FancyContext::initSink`: if the delegating sink has no lock yet,
install one and clear the escape flag; otherwise do nothing. -/
def FancyContext.initSink (sink : Sink) : Sink :=
  if !sink.hasLock then { hasLock := true, shouldEscape := false } else sink

/-- Embeds `FancyContext::createLogger(key, level)`: allocate a fresh record
(its pointer is the next free index), lazily give the sink a lock, set the
level from the override when `level > -1` and from the context default
otherwise, set the pattern from the context format, flush on critical, and
insert the pair into the global map (`flat_hash_map::insert`: a no-op when
the key is already bound).  Returns the raw pointer to the new record. -/
def FancyContext.createLogger (key : String) (level : Int) (s : FancyState) :
    Nat × FancyState :=
  let id := s.store.length
  let sink' := if !s.sink.hasLock then FancyContext.initSink s.sink else s.sink
  let lv : Nat := if level > -1 then level.toNat else s.defaults.fancyDefaultLevel
  let new_logger : SpdLogger :=
    { name := key, level := lv, pattern := s.defaults.fancyLogFormat,
      flushLevel := critical }
  let entries' :=
    if (findEntry s.entries key).isSome then s.entries
    else s.entries ++ [(key, id)]
  (id, { s with entries := entries', store := s.store ++ [new_logger], sink := sink' })

/-- Embeds `FancyContext::initFancyLogger(key, logger)`: under the writer lock,
look the key up; create the logger via `createLogger(key)` when absent
(the header's default level argument is the no-override sentinel `-1`,
per the contract that an unsupplied override means the context default),
take the existing pointer when present; store the result into the call
site's atomic slot.  The slot's previous value (`logger`) is overwritten
unconditionally.  The returned `Option Nat` is the slot's new value. -/
def FancyContext.initFancyLogger (key : String) (logger : Option Nat)
    (s : FancyState) : Option Nat × FancyState :=
  match findEntry s.entries key with
  | some id => (some id, s)
  | none =>
    let r := FancyContext.createLogger key (-1) s
    (some r.1, r.2)

/-- Embeds `FancyContext::setFancyLogger(key, log_level)`: under the lock, if the
key is bound mutate that record's level and return true; otherwise return
false and touch nothing. -/
def FancyContext.setFancyLogger (key : String) (log_level : Nat)
    (s : FancyState) : Bool × FancyState :=
  match findEntry s.entries key with
  | some id => (true, { s with store := modifyLevel s.store id log_level })
  | none => (false, s)

/-- The free-function revision's `kSinkInit` flag: declared `int kSinkInit
= 0` and never written anywhere, so it is constantly 0. -/
def kSinkInit : Nat := 0

/-- The free-function revision's `LOG_PATTERN` constant. -/
def LOG_PATTERN : String := "[%Y-%m-%d %T.%e][%t][%l][%n] %v"

/-- Free-function `initSink`: identical sink effect to
`FancyContext::initSink` (the extra `printf` has no state effect). -/
def initSink (sink : Sink) : Sink :=
  if !sink.hasLock then { hasLock := true, shouldEscape := false } else sink

/-- Free-function `createLogger(key, level = info)`: allocate a record at
the given level with the fixed `LOG_PATTERN`, flush on critical, insert
into the map.  It never touches the sink. -/
def createLogger (key : String) (level : Nat) (s : FancyState) :
    Nat × FancyState :=
  let id := s.store.length
  let new_logger : SpdLogger :=
    { name := key, level := level, pattern := LOG_PATTERN,
      flushLevel := critical }
  let entries' :=
    if (findEntry s.entries key).isSome then s.entries
    else s.entries ++ [(key, id)]
  (id, { s with entries := entries', store := s.store ++ [new_logger] })

/-- Free-function `initFancyLogger(key, logger)`: since `kSinkInit` is
always 0, every call runs `initSink` first; then lookup-or-create with the
default level argument `info`, and store the result into the slot. -/
def initFancyLogger (key : String) (logger : Option Nat) (s : FancyState) :
    Option Nat × FancyState :=
  let s1 := if kSinkInit = 0 then { s with sink := initSink s.sink } else s
  match findEntry s1.entries key with
  | some id => (some id, s1)
  | none =>
    let r := createLogger key info s1
    (some r.1, r.2)

/-- Free-function `setFancyLogger(key, log_level)`: mutate the record's
level when the key is bound; otherwise CREATE the logger at `log_level`
via `createLogger(key, log_level)`.  Returns nothing. -/
def setFancyLogger (key : String) (log_level : Nat) (s : FancyState) :
    FancyState :=
  match findEntry s.entries key with
  | some id => { s with store := modifyLevel s.store id log_level }
  | none => (createLogger key log_level s).2

/-- Modelled from the spec: `setDefaultLevelAndFormat(newLevel, newFormat)`
of §4.4 (the repository's `FancyContext::setDefaultFancyLevelFormat`,
referenced from the docs but whose definition is not among the source
files).  Under the registry lock it updates every existing record whose
current level equals the previous default level to `newLevel`, leaves the
records customized away from the old default untouched, and installs
`(newLevel, newFormat)` as the defaults consulted by later creations. -/
def FancyContext.setDefaultFancyLevelFormat (level : Nat) (format : String)
    (s : FancyState) : FancyState :=
  let old := s.defaults.fancyDefaultLevel
  { s with
    store := s.store.map
      (fun l => if l.level = old then { l with level := level } else l),
    defaults := { fancyDefaultLevel := level, fancyLogFormat := format } }

/-- Public operations of either revision, for reasoning over sequences. -/
inductive Op where
  | ctxInit (key : String) (slot : Option Nat)
  | ctxSet (key : String) (lv : Nat)
  | ctxCreate (key : String) (lv : Int)
  | freeInit (key : String) (slot : Option Nat)
  | freeSet (key : String) (lv : Nat)
  | freeCreate (key : String) (lv : Nat)
deriving Repr

/-- State transition of one public operation. -/
def applyOp : Op → FancyState → FancyState
  | .ctxInit key slot, s => (FancyContext.initFancyLogger key slot s).2
  | .ctxSet key lv, s => (FancyContext.setFancyLogger key lv s).2
  | .ctxCreate key lv, s => (FancyContext.createLogger key lv s).2
  | .freeInit key slot, s => (initFancyLogger key slot s).2
  | .freeSet key lv, s => setFancyLogger key lv s
  | .freeCreate key lv, s => (createLogger key lv s).2

/-- Run a sequence of public operations left to right. -/
def applyOps : List Op → FancyState → FancyState
  | [], s => s
  | op :: rest, s => applyOps rest (applyOp op s)

/-- Number of map entries bound to `key`. -/
def countKey (entries : List (String × Nat)) (key : String) : Nat :=
  (entries.filter (fun p => p.1 = key)).length

/-- N serialized `FancyContext::initFancyLogger` calls for the same key
(the writer mutex totally orders racing callers, so any interleaving of N
concurrent calls is this sequence); returns every caller's slot value and
the final state. -/
def runCalls (key : String) : Nat → FancyState → List (Option Nat) × FancyState
  | 0, s => ([], s)
  | n + 1, s =>
    ((FancyContext.initFancyLogger key none s).1
        :: (runCalls key n (FancyContext.initFancyLogger key none s).2).1,
     (runCalls key n (FancyContext.initFancyLogger key none s).2).2)

/-- Sample sink without a lock. -/
def sink0 : Sink := { hasLock := false, shouldEscape := true }

/-- Sample context defaults. -/
def defaults0 : ContextDefaults :=
  { fancyDefaultLevel := info, fancyLogFormat := LOG_PATTERN }

/-- Sample empty state (process start). -/
def emptyState : FancyState :=
  { entries := [], store := [], sink := sink0, defaults := defaults0 }

/-- Sample record "a" at the default level. -/
def loggerA : SpdLogger :=
  { name := "a", level := info, pattern := LOG_PATTERN, flushLevel := critical }

/-- Sample record "b" customized away from the default. -/
def loggerB : SpdLogger :=
  { name := "b", level := 4, pattern := LOG_PATTERN, flushLevel := critical }

/-- Sample state with two registered loggers and an installed sink lock. -/
def stateAB : FancyState :=
  { entries := [("a", 0), ("b", 1)], store := [loggerA, loggerB],
    sink := { hasLock := true, shouldEscape := false }, defaults := defaults0 }

example : findEntry stateAB.entries "a" = some 0 := by decide
example : findEntry stateAB.entries "c" = none := by decide
example : (FancyContext.initFancyLogger "a" none stateAB).1 = some 0 := by decide
example : (FancyContext.initFancyLogger "c" none stateAB).2.store.length = 3 := by
  decide
example : (FancyContext.setFancyLogger "c" 0 stateAB).1 = false := by decide
example : (setFancyLogger "c" 0 stateAB).entries = [("a", 0), ("b", 1), ("c", 2)] := by
  decide

/-! ### Helper lemmas -/

theorem findEntry_append_found (es ts : List (String × Nat)) (key : String)
    (id : Nat) (h : findEntry es key = some id) :
    findEntry (es ++ ts) key = some id := by
  induction es with
  | nil => simp [findEntry] at h
  | cons p rest ih =>
    obtain ⟨k, v⟩ := p
    by_cases hk : k = key
    · simpa [findEntry, hk] using h
    · simp only [findEntry, hk, if_false, List.cons_append] at h ⊢
      exact ih h

theorem findEntry_append_new (es : List (String × Nat)) (key : String)
    (id : Nat) (h : findEntry es key = none) :
    findEntry (es ++ [(key, id)]) key = some id := by
  induction es with
  | nil => simp [findEntry]
  | cons p rest ih =>
    obtain ⟨k, v⟩ := p
    by_cases hk : k = key
    · simp [findEntry, hk] at h
    · simp only [findEntry, hk, if_false] at h
      simp only [List.cons_append, findEntry, hk, if_false]
      exact ih h

theorem FancyContext.createLogger_fst (key : String) (level : Int)
    (s : FancyState) : (FancyContext.createLogger key level s).1 = s.store.length :=
  rfl

theorem FancyContext.createLogger_store (key : String) (level : Int)
    (s : FancyState) :
    (FancyContext.createLogger key level s).2.store =
      s.store ++
        [{ name := key,
           level := if level > -1 then level.toNat else s.defaults.fancyDefaultLevel,
           pattern := s.defaults.fancyLogFormat, flushLevel := critical }] :=
  rfl

theorem FancyContext.createLogger_entries (key : String) (level : Int)
    (s : FancyState) :
    (FancyContext.createLogger key level s).2.entries =
      if (findEntry s.entries key).isSome then s.entries
      else s.entries ++ [(key, s.store.length)] :=
  rfl

theorem FancyContext.createLogger_sink (key : String) (level : Int)
    (s : FancyState) :
    (FancyContext.createLogger key level s).2.sink =
      if !s.sink.hasLock then FancyContext.initSink s.sink else s.sink :=
  rfl

theorem FancyContext.createLogger_defaults (key : String) (level : Int)
    (s : FancyState) :
    (FancyContext.createLogger key level s).2.defaults = s.defaults :=
  rfl

theorem createLogger_free_fst (key : String) (level : Nat) (s : FancyState) :
    (createLogger key level s).1 = s.store.length :=
  rfl

theorem createLogger_free_store (key : String) (level : Nat) (s : FancyState) :
    (createLogger key level s).2.store =
      s.store ++
        [{ name := key, level := level, pattern := LOG_PATTERN,
           flushLevel := critical }] :=
  rfl

theorem createLogger_free_entries (key : String) (level : Nat) (s : FancyState) :
    (createLogger key level s).2.entries =
      if (findEntry s.entries key).isSome then s.entries
      else s.entries ++ [(key, s.store.length)] :=
  rfl

theorem createLogger_free_sink (key : String) (level : Nat) (s : FancyState) :
    (createLogger key level s).2.sink = s.sink :=
  rfl

theorem initFancyLogger_free_eq (key : String) (logger : Option Nat)
    (s : FancyState) :
    initFancyLogger key logger s =
      match findEntry s.entries key with
      | some id => (some id, { s with sink := initSink s.sink })
      | none =>
        (some (createLogger key info { s with sink := initSink s.sink }).1,
         (createLogger key info { s with sink := initSink s.sink }).2) :=
  rfl

theorem modifyLevel_get_ne (st : List SpdLogger) (i j lv : Nat) (h : j ≠ i) :
    (modifyLevel st i lv)[j]? = st[j]? := by
  induction st generalizing i j with
  | nil => simp [modifyLevel]
  | cons l rest ih =>
    cases i with
    | zero =>
      cases j with
      | zero => exact absurd rfl h
      | succ j => simp [modifyLevel]
    | succ i =>
      cases j with
      | zero => simp [modifyLevel]
      | succ j =>
        simp only [modifyLevel, List.getElem?_cons_succ]
        exact ih i j (fun hj => h (by rw [hj]))

theorem modifyLevel_get_eq (st : List SpdLogger) (i lv : Nat) :
    (modifyLevel st i lv)[i]? = (st[i]?).map (fun l => { l with level := lv }) := by
  induction st generalizing i with
  | nil => simp [modifyLevel]
  | cons l rest ih =>
    cases i with
    | zero => simp [modifyLevel]
    | succ i => simpa [modifyLevel] using ih i

theorem modifyLevel_length (st : List SpdLogger) (i lv : Nat) :
    (modifyLevel st i lv).length = st.length := by
  induction st generalizing i with
  | nil => rfl
  | cons l rest ih =>
    cases i with
    | zero => rfl
    | succ i => simpa [modifyLevel] using ih i

theorem countKey_append_self (es : List (String × Nat)) (key : String)
    (id : Nat) : countKey (es ++ [(key, id)]) key = countKey es key + 1 := by
  simp [countKey, List.filter_append]

theorem initFancyLogger_found (key : String) (slot : Option Nat) (id : Nat)
    (s : FancyState) (h : findEntry s.entries key = some id) :
    FancyContext.initFancyLogger key slot s = (some id, s) := by
  unfold FancyContext.initFancyLogger
  rw [h]

theorem initFancyLogger_absent (key : String) (slot : Option Nat)
    (s : FancyState) (h : findEntry s.entries key = none) :
    FancyContext.initFancyLogger key slot s
      = (some s.store.length, (FancyContext.createLogger key (-1) s).2) := by
  unfold FancyContext.initFancyLogger
  rw [h]
  rfl

/-! ### C10 -/

/-- C10: after any `initFancyLogger(key, slot)` call the slot holds a
non-null pointer, and it is exactly the pointer the global map binds to
`key` afterwards: the cache slot and the registry are coherent and a
resolved slot is never left empty. -/
theorem initFancyLogger_slot_coherent (key : String) (slot : Option Nat)
    (s : FancyState) :
    ((FancyContext.initFancyLogger key slot s).1).isSome = true ∧
    findEntry (FancyContext.initFancyLogger key slot s).2.entries key
      = (FancyContext.initFancyLogger key slot s).1 := by
  unfold FancyContext.initFancyLogger
  cases hf : findEntry s.entries key with
  | some id => simpa using hf
  | none =>
    refine ⟨rfl, ?_⟩
    show findEntry (FancyContext.createLogger key (-1) s).2.entries key
      = some (FancyContext.createLogger key (-1) s).1
    rw [FancyContext.createLogger_entries, FancyContext.createLogger_fst, hf]
    simpa using findEntry_append_new s.entries key s.store.length hf

/-! ### C1 -/

/-- C1: `initFancyLogger` (the spec's `lookupOrCreate`) always succeeds
with no error outcome, in both revisions: when `key` is absent it
constructs a new record, inserts it under `key`, and stores its pointer
into the slot; when `key` is present it stores the existing pointer into
the slot and creates nothing (the store is unchanged). -/
theorem initFancyLogger_lookupOrCreate (key : String) (slot : Option Nat)
    (s : FancyState) :
    (∀ id, findEntry s.entries key = some id →
        FancyContext.initFancyLogger key slot s = (some id, s)) ∧
    (findEntry s.entries key = none →
        (FancyContext.initFancyLogger key slot s).1 = some s.store.length ∧
        (FancyContext.initFancyLogger key slot s).2.entries
          = s.entries ++ [(key, s.store.length)] ∧
        (FancyContext.initFancyLogger key slot s).2.store.length
          = s.store.length + 1) ∧
    (∀ id, findEntry s.entries key = some id →
        (initFancyLogger key slot s).1 = some id ∧
        (initFancyLogger key slot s).2.entries = s.entries ∧
        (initFancyLogger key slot s).2.store = s.store) ∧
    (findEntry s.entries key = none →
        (initFancyLogger key slot s).1 = some s.store.length ∧
        (initFancyLogger key slot s).2.entries
          = s.entries ++ [(key, s.store.length)] ∧
        (initFancyLogger key slot s).2.store.length = s.store.length + 1) := by
  refine ⟨?_, ?_, ?_, ?_⟩
  · intro id h
    unfold FancyContext.initFancyLogger
    rw [h]
  · intro h
    unfold FancyContext.initFancyLogger
    rw [h]
    refine ⟨rfl, ?_, ?_⟩
    · rw [FancyContext.createLogger_entries]
      simp [h]
    · rw [FancyContext.createLogger_store]
      simp
  · intro id h
    rw [initFancyLogger_free_eq, h]
    exact ⟨rfl, rfl, rfl⟩
  · intro h
    rw [initFancyLogger_free_eq, h]
    refine ⟨rfl, ?_, ?_⟩
    · rw [createLogger_free_entries]
      simp [h]
    · rw [createLogger_free_store]
      simp

/-- C1 witness: at a concrete populated state, resolving the registered
key "a" yields the already-bound pointer 0 with the state untouched. -/
theorem initFancyLogger_lookupOrCreate_witness :
    FancyContext.initFancyLogger "a" none stateAB = (some 0, stateAB) :=
  (initFancyLogger_lookupOrCreate "a" none stateAB).1 0 (by decide)

/-! ### C2 (corrected) -/

/-- C2 counterexample: the free-function revision's `setFancyLogger` does
not leave the registry unchanged on an absent key — starting from the
empty registry, `setFancyLogger("missing", info)` creates and inserts a
record for "missing" (and, returning void, cannot report not-found). -/
theorem setFancyLogger_absent_creates_cex :
    (setFancyLogger "missing" info emptyState).entries = [("missing", 0)] ∧
    emptyState.entries = [] ∧
    (setFancyLogger "missing" info emptyState).store.length
      = emptyState.store.length + 1 :=
  ⟨rfl, rfl, rfl⟩

/-- C2 amended: the class revision `FancyContext::setFancyLogger` behaves
exactly as claimed — it returns true and mutates exactly the bound
record's level when the key exists, and returns false with the state
entirely unchanged when the key is absent; the older free-function
revision of `setFancyLogger`, by contrast, follows the spec's alternative
policy: on an absent key it creates the record at the requested level
(with the fixed default pattern) instead of reporting not-found. -/
theorem setFancyLogger_policy (key : String) (lv : Nat) (s : FancyState) :
    (∀ id, findEntry s.entries key = some id →
        (FancyContext.setFancyLogger key lv s).1 = true ∧
        (FancyContext.setFancyLogger key lv s).2.entries = s.entries ∧
        ((FancyContext.setFancyLogger key lv s).2.store)[id]?
          = (s.store[id]?).map (fun l => { l with level := lv }) ∧
        (∀ j, j ≠ id →
          ((FancyContext.setFancyLogger key lv s).2.store)[j]? = s.store[j]?)) ∧
    (findEntry s.entries key = none →
        FancyContext.setFancyLogger key lv s = (false, s)) ∧
    (findEntry s.entries key = none →
        findEntry (setFancyLogger key lv s).entries key = some s.store.length ∧
        (setFancyLogger key lv s).store[s.store.length]?
          = some { name := key, level := lv, pattern := LOG_PATTERN,
                   flushLevel := critical }) := by
  refine ⟨?_, ?_, ?_⟩
  · intro id h
    unfold FancyContext.setFancyLogger
    rw [h]
    exact ⟨rfl, rfl, modifyLevel_get_eq s.store id lv,
      fun j hj => modifyLevel_get_ne s.store id j lv hj⟩
  · intro h
    unfold FancyContext.setFancyLogger
    rw [h]
  · intro h
    unfold setFancyLogger
    rw [h]
    constructor
    · rw [createLogger_free_entries]
      simp only [h, Option.isSome_none, Bool.false_eq_true, if_false]
      exact findEntry_append_new s.entries key s.store.length h
    · rw [createLogger_free_store]
      simp

/-- C2 witness: at a concrete populated state, setting the registered key
"a" succeeds (returns true). -/
theorem setFancyLogger_policy_witness :
    (FancyContext.setFancyLogger "a" 4 stateAB).1 = true :=
  (((setFancyLogger_policy "a" 4 stateAB).1) 0 (by decide)).1

/-! ### C4 -/

/-- C4: resolution is idempotent and many-to-one: for a key not yet
registered, a second `initFancyLogger` call (with the same or another
slot) stores the same record pointer as the first call and leaves the
state exactly as the first call left it, and the registry holds exactly
one more entry for the key than before the first call, however many call
sites resolve it. -/
theorem initFancyLogger_idempotent (key : String) (sl1 sl2 : Option Nat)
    (s : FancyState) (h : findEntry s.entries key = none) :
    (FancyContext.initFancyLogger key sl2
        (FancyContext.initFancyLogger key sl1 s).2).1
      = (FancyContext.initFancyLogger key sl1 s).1 ∧
    (FancyContext.initFancyLogger key sl2
        (FancyContext.initFancyLogger key sl1 s).2).2
      = (FancyContext.initFancyLogger key sl1 s).2 ∧
    countKey (FancyContext.initFancyLogger key sl1 s).2.entries key
      = countKey s.entries key + 1 := by
  have h1 : FancyContext.initFancyLogger key sl1 s
      = (some s.store.length, (FancyContext.createLogger key (-1) s).2) :=
    initFancyLogger_absent key sl1 s h
  have he : (FancyContext.initFancyLogger key sl1 s).2.entries
      = s.entries ++ [(key, s.store.length)] := by
    rw [h1, FancyContext.createLogger_entries]
    simp [h]
  have hf : findEntry (FancyContext.initFancyLogger key sl1 s).2.entries key
      = some s.store.length := by
    rw [he]; exact findEntry_append_new s.entries key s.store.length h
  have h2 : FancyContext.initFancyLogger key sl2
        (FancyContext.initFancyLogger key sl1 s).2
      = (some s.store.length, (FancyContext.initFancyLogger key sl1 s).2) :=
    initFancyLogger_found key sl2 s.store.length _ hf
  refine ⟨?_, ?_, ?_⟩
  · rw [h2, h1]
  · rw [h2]
  · rw [he]
    exact countKey_append_self s.entries key s.store.length

/-- C4 witness: resolving the new key "c" twice from the sample state
yields the pointer created by the first call both times. -/
theorem initFancyLogger_idempotent_witness :
    (FancyContext.initFancyLogger "c" none
        (FancyContext.initFancyLogger "c" none stateAB).2).1
      = (FancyContext.initFancyLogger "c" none stateAB).1 :=
  (initFancyLogger_idempotent "c" none none stateAB (by decide)).1

/-! ### C5 -/

/-- C5: the factory `FancyContext::createLogger` produces a record whose
level equals the override when one is supplied (`level > -1`) and the
context's default fancy level otherwise, and whose pattern equals the
context's default log format. -/
theorem createLogger_level_pattern (key : String) (level : Int)
    (s : FancyState) :
    (level > -1 →
      ((FancyContext.createLogger key level s).2.store)[(FancyContext.createLogger key level s).1]?
        = some { name := key, level := level.toNat,
                 pattern := s.defaults.fancyLogFormat, flushLevel := critical }) ∧
    (¬ level > -1 →
      ((FancyContext.createLogger key level s).2.store)[(FancyContext.createLogger key level s).1]?
        = some { name := key, level := s.defaults.fancyDefaultLevel,
                 pattern := s.defaults.fancyLogFormat, flushLevel := critical }) := by
  rw [FancyContext.createLogger_fst, FancyContext.createLogger_store]
  constructor
  · intro h
    simp [h]
  · intro h
    simp [h]

/-- C5 witness: with the override 4 supplied, the record created for "c"
from the sample state carries level 4 and the context's format. -/
theorem createLogger_level_pattern_witness :
    ((FancyContext.createLogger "c" 4 stateAB).2.store)[(FancyContext.createLogger "c" 4 stateAB).1]?
      = some { name := "c", level := (4 : Int).toNat,
               pattern := stateAB.defaults.fancyLogFormat,
               flushLevel := critical } :=
  (createLogger_level_pattern "c" 4 stateAB).1 (by decide)

/-! ### C6 -/

/-- C6: frame property of the targeted update: when the registry binds the
distinct identifiers `a` and `b` to their (distinct) records, after
`setFancyLogger a lv` the key set is unchanged, the record of b is
unchanged, and every record other than that of a is unchanged. -/
theorem setFancyLogger_frame (a b : String) (ia ib lv : Nat) (s : FancyState)
    (ha : findEntry s.entries a = some ia)
    (hb : findEntry s.entries b = some ib) (hab : ia ≠ ib) :
    (FancyContext.setFancyLogger a lv s).2.entries = s.entries ∧
    ((FancyContext.setFancyLogger a lv s).2.store)[ib]? = s.store[ib]? ∧
    (∀ j, j ≠ ia →
      ((FancyContext.setFancyLogger a lv s).2.store)[j]? = s.store[j]?) := by
  unfold FancyContext.setFancyLogger
  rw [ha]
  exact ⟨rfl, modifyLevel_get_ne s.store ia ib lv (Ne.symm hab),
    fun j hj => modifyLevel_get_ne s.store ia j lv hj⟩

/-- C6 witness: in the sample two-logger state, setting "a" leaves the
record of "b" (index 1) untouched. -/
theorem setFancyLogger_frame_witness :
    ((FancyContext.setFancyLogger "a" 4 stateAB).2.store)[1]?
      = stateAB.store[1]? :=
  (setFancyLogger_frame "a" "b" 0 1 4 stateAB (by decide) (by decide)
    (by decide)).2.1

/-! ### C3 -/

theorem findEntry_preserved_create_ctx (key k : String) (level : Int)
    (s : FancyState) (id : Nat) (h : findEntry s.entries k = some id) :
    findEntry (FancyContext.createLogger key level s).2.entries k = some id := by
  rw [FancyContext.createLogger_entries]
  cases hfk : findEntry s.entries key with
  | some j => simpa [hfk] using h
  | none =>
    simp only [hfk, Option.isSome_none, Bool.false_eq_true, if_false]
    exact findEntry_append_found s.entries [(key, s.store.length)] k id h

theorem findEntry_preserved_create_free (key k : String) (level : Nat)
    (s : FancyState) (id : Nat) (h : findEntry s.entries k = some id) :
    findEntry (createLogger key level s).2.entries k = some id := by
  rw [createLogger_free_entries]
  cases hfk : findEntry s.entries key with
  | some j => simpa [hfk] using h
  | none =>
    simp only [hfk, Option.isSome_none, Bool.false_eq_true, if_false]
    exact findEntry_append_found s.entries [(key, s.store.length)] k id h

theorem findEntry_preserved_init_ctx (key k : String) (slot : Option Nat)
    (s : FancyState) (id : Nat) (h : findEntry s.entries k = some id) :
    findEntry (FancyContext.initFancyLogger key slot s).2.entries k = some id := by
  cases hf : findEntry s.entries key with
  | some j =>
    rw [initFancyLogger_found key slot j s hf]
    exact h
  | none =>
    rw [initFancyLogger_absent key slot s hf]
    exact findEntry_preserved_create_ctx key k (-1) s id h

theorem setFancyLogger_ctx_entries (key : String) (lv : Nat) (s : FancyState) :
    (FancyContext.setFancyLogger key lv s).2.entries = s.entries := by
  unfold FancyContext.setFancyLogger
  cases hf : findEntry s.entries key <;> rfl

theorem findEntry_preserved_init_free (key k : String) (slot : Option Nat)
    (s : FancyState) (id : Nat) (h : findEntry s.entries k = some id) :
    findEntry (initFancyLogger key slot s).2.entries k = some id := by
  rw [initFancyLogger_free_eq]
  cases hf : findEntry s.entries key with
  | some j => exact h
  | none =>
    exact findEntry_preserved_create_free key k info
      { s with sink := initSink s.sink } id h

theorem findEntry_preserved_set_free (key k : String) (lv : Nat)
    (s : FancyState) (id : Nat) (h : findEntry s.entries k = some id) :
    findEntry (setFancyLogger key lv s).entries k = some id := by
  unfold setFancyLogger
  cases hf : findEntry s.entries key with
  | some j => exact h
  | none => exact findEntry_preserved_create_free key k lv s id h

theorem applyOp_preserves_entry (op : Op) (s : FancyState) (k : String)
    (id : Nat) (h : findEntry s.entries k = some id) :
    findEntry (applyOp op s).entries k = some id := by
  cases op with
  | ctxInit key slot => exact findEntry_preserved_init_ctx key k slot s id h
  | ctxSet key lv =>
    show findEntry (FancyContext.setFancyLogger key lv s).2.entries k = some id
    rw [setFancyLogger_ctx_entries]
    exact h
  | ctxCreate key lv => exact findEntry_preserved_create_ctx key k lv s id h
  | freeInit key slot => exact findEntry_preserved_init_free key k slot s id h
  | freeSet key lv => exact findEntry_preserved_set_free key k lv s id h
  | freeCreate key lv => exact findEntry_preserved_create_free key k lv s id h

/-- C3: insert-only registry invariant: over every sequence of public
operations of either revision (initFancyLogger, setFancyLogger,
createLogger), an identifier once bound in the global map keeps its
binding — the record pointer associated with it is never removed and
never replaced, so it is the same after every subsequent operation. -/
theorem registry_insert_only (ops : List Op) (s : FancyState) (k : String)
    (id : Nat) (h : findEntry s.entries k = some id) :
    findEntry (applyOps ops s).entries k = some id := by
  induction ops generalizing s with
  | nil => exact h
  | cons op rest ih =>
    exact ih (applyOp op s) (applyOp_preserves_entry op s k id h)

/-- C3 witness: the binding of "a" (pointer 0) survives a later creation, a
free-revision set that inserts a new key, and a targeted level change. -/
theorem registry_insert_only_witness :
    findEntry (applyOps [Op.ctxInit "c" none, Op.freeSet "d" 3, Op.ctxSet "a" 4]
      stateAB).entries "a" = some 0 :=
  registry_insert_only [Op.ctxInit "c" none, Op.freeSet "d" 3, Op.ctxSet "a" 4]
    stateAB "a" 0 (by decide)

/-! ### C7 -/

theorem initSink_free_locked (sink : Sink) (h : sink.hasLock = true) :
    initSink sink = sink := by
  simp [initSink, h]

theorem applyOp_sink (op : Op) (s : FancyState) (h : s.sink.hasLock = true) :
    (applyOp op s).sink = s.sink := by
  cases op with
  | ctxInit key slot =>
    show (FancyContext.initFancyLogger key slot s).2.sink = s.sink
    cases hf : findEntry s.entries key with
    | some id => rw [initFancyLogger_found key slot id s hf]
    | none =>
      rw [initFancyLogger_absent key slot s hf]
      show (FancyContext.createLogger key (-1) s).2.sink = s.sink
      rw [FancyContext.createLogger_sink]
      simp [h]
  | ctxSet key lv =>
    show (FancyContext.setFancyLogger key lv s).2.sink = s.sink
    unfold FancyContext.setFancyLogger
    cases hf : findEntry s.entries key <;> rfl
  | ctxCreate key lv =>
    show (FancyContext.createLogger key lv s).2.sink = s.sink
    rw [FancyContext.createLogger_sink]
    simp [h]
  | freeInit key slot =>
    show (initFancyLogger key slot s).2.sink = s.sink
    rw [initFancyLogger_free_eq]
    cases hf : findEntry s.entries key with
    | some id =>
      show initSink s.sink = s.sink
      exact initSink_free_locked s.sink h
    | none =>
      show (createLogger key info { s with sink := initSink s.sink }).2.sink
        = s.sink
      rw [createLogger_free_sink]
      show initSink s.sink = s.sink
      exact initSink_free_locked s.sink h
  | freeSet key lv =>
    show (setFancyLogger key lv s).sink = s.sink
    unfold setFancyLogger
    cases hf : findEntry s.entries key with
    | some id => rfl
    | none =>
      show (createLogger key lv s).2.sink = s.sink
      rw [createLogger_free_sink]
  | freeCreate key lv =>
    show (createLogger key lv s).2.sink = s.sink
    rw [createLogger_free_sink]

theorem applyOps_sink (ops : List Op) (s : FancyState)
    (h : s.sink.hasLock = true) : (applyOps ops s).sink = s.sink := by
  induction ops generalizing s with
  | nil => rfl
  | cons op rest ih =>
    have h1 := applyOp_sink op s h
    calc (applyOps (op :: rest) s).sink
        = (applyOp op s).sink := ih (applyOp op s) (by rw [h1]; exact h)
      _ = s.sink := h1

/-- C7: sink configuration is one-shot and idempotent: `initSink` always
leaves the sink locked, it is the identity on a sink that already has a
lock (so repeating it changes nothing), and once the sink is locked no
sequence of public operations — however many records they create —
changes the sink's state. -/
theorem initSink_one_shot (sink : Sink) (ops : List Op) (s : FancyState) :
    (FancyContext.initSink sink).hasLock = true ∧
    (sink.hasLock = true → FancyContext.initSink sink = sink) ∧
    FancyContext.initSink (FancyContext.initSink sink)
      = FancyContext.initSink sink ∧
    (s.sink.hasLock = true → (applyOps ops s).sink = s.sink) := by
  refine ⟨?_, ?_, ?_, ?_⟩
  · cases hl : sink.hasLock <;> simp [FancyContext.initSink, hl]
  · intro h
    simp [FancyContext.initSink, h]
  · cases hl : sink.hasLock <;> simp [FancyContext.initSink, hl]
  · intro h
    exact applyOps_sink ops s h

/-- C7 witness: with the sample state's sink already locked, a sequence
creating a new record leaves the sink untouched. -/
theorem initSink_one_shot_witness :
    (applyOps [Op.ctxInit "c" none] stateAB).sink = stateAB.sink :=
  (initSink_one_shot sink0 [Op.ctxInit "c" none] stateAB).2.2.2 (by decide)

/-! ### C8 -/

theorem runCalls_found (key : String) (id : Nat) :
    ∀ (n : Nat) (s : FancyState), findEntry s.entries key = some id →
      runCalls key n s = (List.replicate n (some id), s)
  | 0, _, _ => rfl
  | n + 1, s, h => by
    unfold runCalls
    rw [initFancyLogger_found key none id s h]
    dsimp only
    rw [runCalls_found key id n s h]
    simp [List.replicate_succ]

/-- C8: single creation under race: the registry's writer mutex
serializes N concurrent `initFancyLogger` calls for the same fresh key
into a sequence of N calls; for every N, every caller's slot ends holding
the identical pointer (the record allocated by the first call), and
exactly one record is created — the store grows by one and the key gains
exactly one map entry. -/
theorem initFancyLogger_single_creation (key : String) (n : Nat)
    (s : FancyState) (h : findEntry s.entries key = none) :
    (∀ p ∈ (runCalls key n s).1, p = some s.store.length) ∧
    (1 ≤ n →
      (runCalls key n s).2.store.length = s.store.length + 1 ∧
      countKey (runCalls key n s).2.entries key
        = countKey s.entries key + 1) := by
  cases n with
  | zero =>
    refine ⟨?_, ?_⟩
    · intro p hp
      simp [runCalls] at hp
    · intro h0
      exact absurd h0 (by decide)
  | succ n =>
    have h1 := initFancyLogger_absent key none s h
    have hse : (FancyContext.initFancyLogger key none s).2.entries
        = s.entries ++ [(key, s.store.length)] := by
      rw [h1, FancyContext.createLogger_entries]
      simp [h]
    have hsf : findEntry (FancyContext.initFancyLogger key none s).2.entries key
        = some s.store.length := by
      rw [hse]
      exact findEntry_append_new s.entries key s.store.length h
    refine ⟨?_, ?_⟩
    · intro p hp
      unfold runCalls at hp
      rw [runCalls_found key s.store.length n
        (FancyContext.initFancyLogger key none s).2 hsf] at hp
      dsimp only at hp
      rw [h1] at hp
      dsimp only at hp
      rcases List.mem_cons.mp hp with h' | h'
      · exact h'
      · exact List.eq_of_mem_replicate h'
    · intro _
      unfold runCalls
      rw [runCalls_found key s.store.length n
        (FancyContext.initFancyLogger key none s).2 hsf]
      dsimp only
      constructor
      · rw [h1]
        show (FancyContext.createLogger key (-1) s).2.store.length
          = s.store.length + 1
        rw [FancyContext.createLogger_store]
        simp
      · rw [hse]
        exact countKey_append_self s.entries key s.store.length

/-- C8 witness: three serialized racing calls for the fresh key "c"
create exactly one record on top of the sample state. -/
theorem initFancyLogger_single_creation_witness :
    (runCalls "c" 3 stateAB).2.store.length = stateAB.store.length + 1 :=
  ((initFancyLogger_single_creation "c" 3 stateAB (by decide)).2 (by decide)).1

/-! ### C9 -/

/-- C9 (modelled from the spec, §4.4): after
`setDefaultFancyLevelFormat(newLevel, newFormat)`, exactly the records
whose current level equals the previous default carry `newLevel`, every
record whose level differs from the previous default is unchanged, and a
record created afterwards without an override is given `newFormat` as its
pattern (and `newLevel` as its level). -/
theorem setDefaultFancyLevelFormat_spec (newLevel : Nat) (newFormat : String)
    (s : FancyState) :
    (∀ (j : Nat) (l : SpdLogger), s.store[j]? = some l →
      l.level = s.defaults.fancyDefaultLevel →
      (FancyContext.setDefaultFancyLevelFormat newLevel newFormat s).store[j]?
        = some { l with level := newLevel }) ∧
    (∀ (j : Nat) (l : SpdLogger), s.store[j]? = some l →
      l.level ≠ s.defaults.fancyDefaultLevel →
      (FancyContext.setDefaultFancyLevelFormat newLevel newFormat s).store[j]?
        = some l) ∧
    (∀ key,
      ((FancyContext.createLogger key (-1)
          (FancyContext.setDefaultFancyLevelFormat newLevel newFormat s)).2.store)[(FancyContext.createLogger key (-1) (FancyContext.setDefaultFancyLevelFormat newLevel newFormat s)).1]?
        = some { name := key, level := newLevel, pattern := newFormat,
                 flushLevel := critical }) := by
  have hst : (FancyContext.setDefaultFancyLevelFormat newLevel newFormat s).store
      = s.store.map (fun l =>
          if l.level = s.defaults.fancyDefaultLevel
          then { l with level := newLevel } else l) := rfl
  refine ⟨?_, ?_, ?_⟩
  · intro j l hl hlev
    rw [hst, List.getElem?_map, hl]
    simp [hlev]
  · intro j l hl hlev
    rw [hst, List.getElem?_map, hl]
    simp [hlev]
  · intro key
    rw [FancyContext.createLogger_fst, FancyContext.createLogger_store]
    simp
    exact ⟨rfl, rfl⟩

/-- C9 witness: in the sample state (default level `info`), the update to
level 3 moves the record of "a" (at the old default) to 3. -/
theorem setDefaultFancyLevelFormat_spec_witness :
    (FancyContext.setDefaultFancyLevelFormat 3 "new-fmt" stateAB).store[0]?
      = some { loggerA with level := 3 } :=
  (setDefaultFancyLevelFormat_spec 3 "new-fmt" stateAB).1 0 loggerA rfl rfl

end Envoy
